import Mathlib

/-!
# SSH transport of containerlab: reader, command runner, transactional writer

A shallow embedding of `clab/config/transport/ssh.go`.

Go strings are modelled as lists of characters (`Text`).  The background task of
`InChannel` is a function from the results of the successive `Read` calls to the Replies
it sends on the channel (each send is taken to be received); `Run` is a function from the
events its `select` observes (a Reply received, or the timer firing) to its outcome;
`Write` is a function to the trace of the calls it makes and to how it ends (it returns, or
a call of `Run` ends the process); `NewSSHTransport` and `Connect` are functions to the
transport, the error or panic, and the sessions they try to open.
-/

namespace Transport

/-- A Go string, as the list of its characters. -/
abbrev Text := List Char

/-! ## The functions of Go's `strings` package that the source calls -/

/-- `strings.Split(s, sep)` for a separator of one character: the pieces of `s` between the
occurrences of `sep`, one more than there are occurrences. -/
def Split (s : Text) (sep : Char) : List Text :=
  match s with
  | [] => [[]]
  | c :: cs =>
    if c = sep then [] :: Split cs sep
    else
      match Split cs sep with
      | [] => [[c]]
      | p :: ps => (c :: p) :: ps

/-- `strings.HasPrefix(s, pre)`. -/
def HasPrefix (s pre : Text) : Bool := pre.isPrefixOf s

/-- `strings.Contains(s, substr)`: `substr` occurs in `s` as a contiguous block. -/
def Contains (s substr : Text) : Bool :=
  match s with
  | [] => substr.isEmpty
  | c :: cs => HasPrefix (c :: cs) substr || Contains cs substr

/-- `strings.Trim(s, cutset)`: drop the leading and the trailing characters that
belong to `cutset`. -/
def Trim (s cutset : Text) : Text :=
  ((s.dropWhile (fun c => cutset.contains c)).reverse.dropWhile
    (fun c => cutset.contains c)).reverse

/-- `unicode.IsSpace`: the white space characters of Unicode. -/
def isSpace (c : Char) : Bool :=
  let n := c.toNat
  n = 0x09 || n = 0x0A || n = 0x0B || n = 0x0C || n = 0x0D || n = 0x20 || n = 0x85 ||
  n = 0xA0 || n = 0x1680 || (0x2000 ≤ n && n ≤ 0x200A) || n = 0x2028 || n = 0x2029 ||
  n = 0x202F || n = 0x205F || n = 0x3000

/-- `strings.TrimSpace(s)`: drop the leading and the trailing white space. -/
def TrimSpace (s : Text) : Text :=
  ((s.dropWhile isSpace).reverse.dropWhile isSpace).reverse

/-- `strings.Join(parts, sep)`. -/
def Join (parts : List Text) (sep : Text) : Text :=
  match parts with
  | [] => []
  | [p] => p
  | p :: q :: rest => p ++ sep ++ Join (q :: rest) sep

/-- `strings.Repeat(s, n)`. -/
def Repeat (s : Text) (n : Nat) : Text :=
  match n with
  | 0 => []
  | k + 1 => s ++ Repeat s k

/-- The cutset `" \n\r\t"` that `Run` trims with. -/
def cutset : Text := [' ', '\n', '\r', '\t']

/-! ## Data model -/

/-- The reply: the result of the executed command, the prompt, and the command. -/
structure SSHReply where
  result : Text
  prompt : Text
  command : Text
  deriving DecidableEq, Repr

/-- One call of `t.ses.In.Read(buf)`: the bytes it delivered (`buf[:n]`) and whether it
returned an error (`err != nil`; end of stream is the error `io.EOF`). -/
structure ReadResult where
  data : Text
  err : Bool
  deriving DecidableEq, Repr

/-- A successful read of the chunk `c`. -/
def ReadResult.ok (c : Text) : ReadResult := { data := c, err := false }

/-- The end of the stream: a read that delivers no byte and returns `io.EOF`. -/
def ReadResult.eof : ReadResult := { data := [], err := true }

/-! ## The reader: the background task of `InChannel` -/

/-- The Reply sent for one segment: what `PromptParse` returns, or, when it returns `nil`,
the whole segment as the result with an empty prompt. -/
def segmentReply (PromptParse : Text → Option SSHReply) (part : Text) : SSHReply :=
  match PromptParse part with
  | some r => r
  | none => { result := part, prompt := [], command := [] }

/-- The body of the reader's loop up to the next `Read`: when the buffer contains `#`, the
Replies sent for all parts but the last, and the last part as the new buffer. -/
def flushSegments (PromptParse : Text → Option SSHReply) (tmpS : Text) :
    List SSHReply × Text :=
  if Contains tmpS ['#'] then
    let parts := Split tmpS '#'
    (parts.dropLast.map (segmentReply PromptParse), parts.getLastD [])
  else ([], tmpS)

/-- The loop `for err == nil` of the reader, entered with the buffer `tmpS` and the results
of the reads still to come.  Returns the Replies sent on the channel and whether the task
has ended; with no read result left the task is blocked in `Read`. -/
def readerLoop (PromptParse : Text → Option SSHReply) (tmpS : Text) :
    List ReadResult → List SSHReply × Bool
  | [] => ((flushSegments PromptParse tmpS).1, false)
  | r :: rs =>
    let flushed := flushSegments PromptParse tmpS
    let tmpS1 := flushed.2 ++ r.data
    if r.err then
      (flushed.1 ++ [{ result := tmpS1, prompt := [], command := [] }], true)
    else
      let next := readerLoop PromptParse tmpS1 rs
      (flushed.1 ++ next.1, next.2)

/-- The background task started by `InChannel`, run on the results of the successive reads:
the Replies it sends on the channel, in order, and whether it has ended. -/
def InChannel (PromptParse : Text → Option SSHReply) :
    List ReadResult → List SSHReply × Bool
  | [] => ([], false)
  | r :: rs =>
    if r.err then ([{ result := [], prompt := [], command := [] }], true)
    else readerLoop PromptParse r.data rs

/-! ## The command runner: `Run` -/

/-- What the `select` of `Run` observes in one iteration. -/
inductive Event where
  /-- A Reply was received from the channel. -/
  | reply (ret : SSHReply)
  /-- The timer `time.After(timeout)` fired first. -/
  | timeout
  deriving DecidableEq, Repr

/-- How a call of `Run` stands after a sequence of events. -/
inductive RunOutcome where
  /-- Returned from the reply branch (line 190). -/
  | answered (res : SSHReply)
  /-- Returned from the timeout branch (line 145). -/
  | timedOut (res : SSHReply)
  /-- The process was ended by `log.Fatalf("received zero?")`. -/
  | fatal
  /-- Still in the loop, with this accumulator and this timeout in seconds. -/
  | waiting (sHistory : Text) (timeout : Int)
  deriving DecidableEq, Repr

/-- The combined text `rr` of `Run` (lines 169 to 175): the received result, after the
accumulator and `#` when the accumulator is not empty, trimmed. -/
def combinedText (sHistory : Text) (ret : SSHReply) : Text :=
  Trim (if sHistory = [] then ret.result else sHistory ++ ['#'] ++ ret.result) cutset

/-- The `for` loop of `Run`, with the accumulator `sHistory` and the current `timeout`. -/
def runLoop (command : Text) (sHistory : Text) (timeout : Int) :
    List Event → RunOutcome
  | [] => .waiting sHistory timeout
  | .timeout :: _ => .timedOut { result := sHistory, prompt := [], command := command }
  | .reply ret :: es =>
    if ret.result = [] ∧ ret.prompt = [] then .fatal
    else if ret.prompt = [] ∧ ret.result ≠ [] then
      runLoop command (sHistory ++ ret.result) 2 es
    else
      let rr := combinedText sHistory ret
      if HasPrefix rr command then
        .answered { result := Trim (rr.drop command.length) cutset, prompt := ret.prompt,
                    command := command }
      else if !Contains rr command then
        runLoop command rr timeout es
      else
        .answered { result := rr, prompt := ret.prompt, command := command }

/-- `Run(command, timeout)` on the events its loop observes.  The line written to the
session before the loop, for a non-empty command, does not enter what `Run` returns. -/
def Run (command : Text) (timeout : Int) (events : List Event) : RunOutcome :=
  runLoop command [] timeout events

/-- The Reply a finished `Run` returned to its caller, if it returned. -/
def RunOutcome.returned : RunOutcome → Option SSHReply
  | .answered res => some res
  | .timedOut res => some res
  | .fatal => none
  | .waiting _ _ => none

/-! ## The transactional writer: `Write` -/

/-- A Go `error` value that is not `nil`. -/
structure GoError where
  message : Text
  deriving DecidableEq, Repr

/-- Modelled from the spec: the interface `SSHKind` is declared outside `ssh.go`; the spec
gives its three hooks as `ParsePrompt(rawChunk, context) -> Reply|none`,
`BeginTransaction(session, isWrite) -> error|none` and
`CommitTransaction(session) -> (Reply, error|none)`.  The hooks act on the session, whose
state has the type `σ`. -/
structure SSHKind (σ : Type) where
  PromptParse : Text → Option SSHReply
  ConfigStart : σ → Bool → Option GoError × σ
  ConfigCommit : σ → (SSHReply × Option GoError) × σ

/-- The fields of `ssh.ClientConfig` that `ssh.go` sets: the user, the passwords of the
`ssh.Password` methods in `Auth`, and whether `HostKeyCallback` is set. -/
structure ClientConfig where
  User : Text := []
  Auth : List Text := []
  HostKeyCallback : Bool := false
  deriving DecidableEq, Repr

/-- The fields of `SSHTransport`, and the behaviour of the method `t.Run(command, timeout)`
on the session as seen by its caller: the Reply it returns, or `none` when the call ends
the process in `log.Fatalf("received zero?")` (lines 154 to 157), and the session state it
leaves.  A field left out has the zero value of Go (`nil` is `none`). -/
structure SSHTransport (σ : Type) where
  Target : Text
  K : SSHKind σ
  Run : σ → Text → Int → Option SSHReply × σ
  LoginMessage : Option SSHReply := none
  Port : Int := 0
  SSHConfig : Option ClientConfig := none
  PromptChar : Text := []

/-- What `Write` does to the outside, in the order it does it. -/
inductive Call where
  | ConfigStart (transaction : Bool)
  | Run (command : Text) (timeout : Int)
  | ConfigCommit
  | logInfo (msg : Text)
  | logError (msg : Text)
  deriving DecidableEq, Repr

/-- `len(s)` of a Go string: its number of bytes in UTF-8. -/
def byteLen (s : Text) : Nat := (s.map Char.utf8Size).sum

/-- The text `fmt.Sprintf("%v", []byte(s))` gives: the bytes in decimal, in brackets. -/
def bytesDump (s : Text) : Text :=
  ['['] ++ Join ((s.flatMap String.utf8EncodeChar).map (fun b => Nat.toDigits 10 b.toNat)) [' ']
    ++ [']']

/-- `r.LogString(node, linefeed, debug)`, with the global `DebugCount`. -/
def SSHReply.LogString (DebugCount : Int) (r : SSHReply) (node : Text)
    (linefeed debug : Bool) : Text :=
  let ind := 12 + byteLen node
  let pre := ['\n'] ++ Repeat [' '] ind
  let s0 : Text := if linefeed then ['\n'] ++ Repeat [' '] 11 else []
  let s1 := s0 ++ (node ++ (" # ").toList ++ r.command)
  let s2 := s1 ++ (pre ++ ("| ").toList)
  let s3 := s2 ++ Join (Split r.result '\n') (pre ++ ("| ").toList)
  if debug then
    let s4 := Repeat [' '] ind ++ s3
    let s5 := s4 ++ (pre ++ ("? ").toList)
    let s6 := s5 ++ Join (Split r.prompt '\n') (pre ++ ("? ").toList)
    if DebugCount > 3 then
      s6 ++ (pre ++ ("| ").toList ++ bytesDump r.result ++ pre ++ (" ? ").toList ++
        bytesDump r.prompt)
    else s6
  else s3

/-- What `r.Info(node)` logs: nothing for an empty result, else the log string. -/
def SSHReply.Info (DebugCount : Int) (r : SSHReply) (node : Text) : List Call :=
  if r.result = [] then [] else [.logInfo (r.LogString DebugCount node false false)]

/-- How a call of `Write` ends. -/
inductive WriteOutcome where
  /-- It returned this error (`none` for `nil`). -/
  | returned (err : Option GoError)
  /-- A call of `Run` ended the process: `Write` does not return. -/
  | exited
  deriving DecidableEq, Repr

/-- The result of `Write`: how it ended, what it did, and the session state it leaves. -/
structure WriteResult (σ : Type) where
  outcome : WriteOutcome
  calls : List Call
  state : σ

/-- The result of the loop of `Write` over the lines of the data: whether a call of `Run`
ended the process, the counter `c` reached from 0, what the loop did, and the session state
it leaves. -/
structure LinesResult (σ : Type) where
  exited : Bool
  c : Nat
  calls : List Call
  state : σ

/-- The loop of `Write` over the lines of the data.  When a call of `Run` ends the process,
nothing is done after it. -/
def writeLines {σ : Type} (DebugCount : Int) (t : SSHTransport σ) :
    List Text → σ → LinesResult σ
  | [], s => { exited := false, c := 0, calls := [], state := s }
  | l :: ls, s =>
    let l1 := TrimSpace l
    if l1 = [] ∨ HasPrefix l1 ['#'] then writeLines DebugCount t ls s
    else
      let ran := t.Run s l1 5
      match ran.1 with
      | none => { exited := true, c := 1, calls := [Call.Run l1 5], state := ran.2 }
      | some r =>
        let rest := writeLines DebugCount t ls ran.2
        { exited := rest.exited, c := rest.c + 1,
          calls := Call.Run l1 5 :: (r.Info DebugCount t.Target ++ rest.calls),
          state := rest.state }

/-- `fmt.Sprintf("%s COMMIT - %d lines", info, c)`. -/
def commitMessage (info : Text) (c : Nat) : Text :=
  info ++ (" COMMIT - ").toList ++ Nat.toDigits 10 c ++ (" lines").toList

/-- `t.Write(data, info)` on the session state `s`. -/
def Write {σ : Type} (DebugCount : Int) (t : SSHTransport σ) (data info : Text) (s : σ) :
    WriteResult σ :=
  if data = [] then { outcome := .returned none, calls := [], state := s }
  else
    let transaction := !HasPrefix info ("show-").toList
    let started := t.K.ConfigStart s transaction
    match started.1 with
    | some e =>
      { outcome := .returned (some e), calls := [.ConfigStart transaction],
        state := started.2 }
    | none =>
      let ran := writeLines DebugCount t (Split data '\n') started.2
      let c := ran.c
      if ran.exited then
        { outcome := .exited, calls := Call.ConfigStart transaction :: ran.calls,
          state := ran.state }
      else if transaction then
        let committed := t.K.ConfigCommit ran.state
        let commit := committed.1.1
        let msg0 := commitMessage info c
        let msg := if commit.result ≠ [] then
            msg0 ++ commit.LogString DebugCount t.Target true false
          else msg0
        match committed.1.2 with
        | some e =>
          { outcome := .returned (some e),
            calls := Call.ConfigStart transaction ::
              (ran.calls ++ [.ConfigCommit, .logError msg]),
            state := committed.2 }
        | none =>
          { outcome := .returned none,
            calls := Call.ConfigStart transaction ::
              (ran.calls ++ [.ConfigCommit, .logInfo msg]),
            state := committed.2 }
      else
        { outcome := .returned none, calls := Call.ConfigStart transaction :: ran.calls,
          state := ran.state }

/-! ## Vocabulary of the statements -/

/-- A text with no leading and no trailing space, line feed, carriage return or tab. -/
def Trimmed (s : Text) : Prop :=
  (∀ c ∈ s.head?, c ∉ cutset) ∧ (∀ c ∈ s.getLast?, c ∉ cutset)

instance (s : Text) : Decidable (Trimmed s) := by
  unfold Trimmed
  infer_instance

/-- The call is a call of `Run`. -/
def Call.isRun : Call → Bool
  | .Run _ _ => true
  | _ => false

/-- The call is a call of the hook `ConfigStart`. -/
def Call.isConfigStart : Call → Bool
  | .ConfigStart _ => true
  | _ => false

/-- The call is a call of the hook `ConfigCommit`. -/
def Call.isConfigCommit : Call → Bool
  | .ConfigCommit => true
  | _ => false

/-- The call writes to the log. -/
def Call.isLog : Call → Bool
  | .logInfo _ => true
  | .logError _ => true
  | _ => false

/-- The text of a log call. -/
def Call.logText : Call → Option Text
  | .logInfo msg => some msg
  | .logError msg => some msg
  | _ => none

/-- A trimmed line is executable when it is not empty and does not start with `#`. -/
def isExecutable (l : Text) : Bool := decide (l ≠ [] ∧ l.head? ≠ some '#')

/-- The executable lines of a blob: its lines (split at line feeds) trimmed of white space,
without those that are empty or start with `#`. -/
def executableLines (data : Text) : List Text :=
  ((Split data '\n').map TrimSpace).filter isExecutable

/-- A session without state whose hooks succeed and return empty Replies, and whose `Run`
answers every command with an empty result and the prompt `#`. -/
def quietDevice : SSHTransport Unit where
  Target := ("sr1").toList
  K := { PromptParse := fun _ => none
         ConfigStart := fun s _ => (none, s)
         ConfigCommit := fun s => (({ result := [], prompt := [], command := [] }, none), s) }
  Run := fun s command _ => (some { result := [], prompt := ['#'], command := command }, s)

/-! ## Construction and connection: `NewSSHTransport`, `Connect` -/

/-- The two types that `NewSSHTransport` puts in the field `K`. -/
inductive SSHKindImpl where
  | VrSrosSSHKind
  | SrlSSHKind
  deriving DecidableEq, Repr

/-- An `SSHOption`: it changes the transport and returns an error or `nil`. -/
abbrev SSHOption (σ : Type) := SSHTransport σ → SSHTransport σ × Option GoError

/-- The loop `for _, opt := range options { opt(c) }`: the errors are dropped. -/
def applyOptions {σ : Type} (c : SSHTransport σ) : List (SSHOption σ) → SSHTransport σ
  | [] => c
  | opt :: rest => applyOptions (opt c).1 rest

/-- `WithUserNamePassword(username, password)`. -/
def WithUserNamePassword {σ : Type} (username password : Text) : SSHOption σ :=
  fun tx =>
    let cfg := match tx.SSHConfig with
      | none => ({} : ClientConfig)
      | some c => c
    ({ tx with SSHConfig := some { cfg with User := username, Auth := cfg.Auth ++ [password],
                                            HostKeyCallback := true } }, none)

/-- `NewSSHTransport(node, options...)` for a node of the kind `kind`: the transport and the
error it returns.  The methods of the two kinds, declared outside `ssh.go`, are given by
`impl`, the behaviour of `Run` on the session by `run`.  The field `K`, which is `nil` while
the options are applied, holds the final value from the start: an option is taken not to
call it. -/
def NewSSHTransport {σ : Type} (impl : SSHKindImpl → SSHKind σ)
    (run : σ → Text → Int → Option SSHReply × σ) (kind : Text)
    (options : List (SSHOption σ)) : Option (SSHTransport σ) × Option GoError :=
  if kind = ("vr-sros").toList ∨ kind = ("srl").toList then
    let k := if kind = ("vr-sros").toList then SSHKindImpl.VrSrosSSHKind
      else SSHKindImpl.SrlSSHKind
    let c0 : SSHTransport σ := { Target := [], K := impl k, Run := run, SSHConfig := some {} }
    let c1 := applyOptions c0 options
    (some { c1 with K := impl k }, none)
  else
    (none, some { message := ("no tranport implemented for kind: ").toList ++ kind })

/-- `fmt.Sprintf("%d", n)`. -/
def formatInt (n : Int) : Text :=
  if n < 0 then '-' :: Nat.toDigits 10 n.natAbs else Nat.toDigits 10 n.toNat

/-- `NewSSHSession(host, sshConfig)`: the error it returns, `none` when it returns a session.
What it does after the check of the port (dial, open the pipes, request the terminal, start
the shell) is the external `dial`. -/
def NewSSHSession (dial : Text → ClientConfig → Option GoError) (host : Text)
    (sshConfig : ClientConfig) : Option GoError :=
  if !Contains host [':'] then
    some { message := ("include the port in the host: ").toList ++ host }
  else dial host sshConfig

/-- How a call of `Connect` ends. -/
inductive ConnectOutcome where
  /-- It returned this error (`none` for `nil`). -/
  | returned (err : Option GoError)
  /-- It panicked with `index out of range [index] with length len`. -/
  | indexOutOfRange (index len : Nat)
  /-- The `Run` of `InChannel` ended the process: `Connect` does not return. -/
  | exited
  deriving DecidableEq, Repr

/-- The result of `Connect`: how it ended, the transport as it left it, the calls of
`NewSSHSession` it made (host and configuration), what it logged, and the session state. -/
structure ConnectResult (σ : Type) where
  outcome : ConnectOutcome
  t : SSHTransport σ
  sessions : List (Text × ClientConfig)
  logs : List Call
  state : σ

/-- `t.Connect(host)` on the session state `s`; after the session is opened it calls
`t.InChannel()`, which starts the reader and saves `t.Run("", 15)` as the login message. -/
def Connect {σ : Type} (DebugCount : Int) (dial : Text → ClientConfig → Option GoError)
    (t : SSHTransport σ) (host : Text) (s : σ) : ConnectResult σ :=
  let t1 := if t.PromptChar = [] then { t with PromptChar := ['#'] } else t
  let t2 := if t1.Port = 0 then { t1 with Port := 22 } else t1
  match t2.SSHConfig with
  | none =>
    { outcome := .returned (some { message := ("require auth credentials in SSHConfig").toList }),
      t := t2, sessions := [], logs := [], state := s }
  | some cfg =>
    let host1 := host ++ [':'] ++ formatInt t2.Port
    let fields := Split ((Split host1 ':').headD []) '-'
    match fields[2]? with
    | none =>
      { outcome := .indexOutOfRange 2 fields.length, t := t2, sessions := [], logs := [],
        state := s }
    | some target =>
      let t3 := { t2 with Target := target }
      match NewSSHSession dial host1 cfg with
      | some e =>
        { outcome := .returned (some { message := ("cannot connect to ").toList ++ host1 ++
            (": ").toList ++ e.message }),
          t := t3, sessions := [(host1, cfg)], logs := [], state := s }
      | none =>
        let login := t3.Run s [] 15
        match login.1 with
        | none =>
          { outcome := .exited, t := t3, sessions := [(host1, cfg)],
            logs := [Call.logInfo (("Connected to ").toList ++ host1 ++ ['\n'])],
            state := login.2 }
        | some message =>
          { outcome := .returned none,
            t := { t3 with LoginMessage := some message },
            sessions := [(host1, cfg)],
            logs := Call.logInfo (("Connected to ").toList ++ host1 ++ ['\n']) ::
              (if DebugCount > 1 then message.Info DebugCount t3.Target else []),
            state := login.2 }

/-- The reader of the transport `t`: the background task of `t.InChannel()`, with the hook
of `t.K`. -/
def SSHTransport.reader {σ : Type} (t : SSHTransport σ) (reads : List ReadResult) :
    List SSHReply × Bool :=
  InChannel t.K.PromptParse reads

/-! ## Devices of the examples -/

/-- The device of `quietDevice` with a `ConfigCommit` that fails. -/
def failingCommitDevice : SSHTransport Unit :=
  { quietDevice with
    K := { quietDevice.K with
           ConfigCommit := fun s =>
             (({ result := [], prompt := [], command := [] },
               some { message := ("commit failed").toList }), s) } }

/-- The device of `quietDevice` with the delimiter `$` in `PromptChar`. -/
def dollarDevice : SSHTransport Unit := { quietDevice with PromptChar := ['$'] }

/-- The device of `quietDevice` with a credential configuration. -/
def credentialDevice : SSHTransport Unit :=
  { quietDevice with SSHConfig := some { User := ("admin").toList, Auth := [("admin").toList],
                                         HostKeyCallback := true } }

/-- A dial that never gets a session. -/
def refusingDial : Text → ClientConfig → Option GoError :=
  fun _ _ => some { message := ("connection refused").toList }

/-- The device of `quietDevice` with a `ConfigStart` that fails. -/
def failingStartDevice : SSHTransport Unit :=
  { quietDevice with
    K := { quietDevice.K with
           ConfigStart := fun s _ => (some { message := ("start failed").toList }, s) } }

/-- The method `t.Run` on a scripted session: the state lists, for each call of `Run` to
come, the Replies that the reader sends during that call; after them the timer fires.  The
result is what `Run` returns on these events, `none` when it ends in `log.Fatalf`. -/
def scriptedRun : List (List SSHReply) → Text → Int →
    Option SSHReply × List (List SSHReply)
  | [], command, timeout => ((Run command timeout [Event.timeout]).returned, [])
  | replies :: rest, command, timeout =>
    ((Run command timeout (replies.map Event.reply ++ [Event.timeout])).returned, rest)

/-- A device whose hooks succeed and whose `Run` is `Run` on the scripted session. -/
def scriptedDevice : SSHTransport (List (List SSHReply)) where
  Target := ("sr1").toList
  K := { PromptParse := fun _ => none
         ConfigStart := fun s _ => (none, s)
         ConfigCommit := fun s => (({ result := [], prompt := [], command := [] }, none), s) }
  Run := scriptedRun

/-- The scripted session in which, during the first call of `Run`, the reader sends what it
sends for the stream `set a 1##`: the segment `set a 1` and an empty segment. -/
def emptySegmentSession : List (List SSHReply) :=
  [(InChannel (fun _ => none) [ReadResult.ok ("set a 1##").toList]).1]

/-! ## Trimming -/

theorem HasPrefix_self (s : Text) : HasPrefix s s = true := by
  simp [HasPrefix]

theorem Trim_nil (cs : Text) : Trim [] cs = [] := by
  simp [Trim]

theorem head?_rdropWhile {α : Type} (p : α → Bool) (a : α) (l : List α) (ha : p a = false) :
    (List.rdropWhile p (a :: l)).head? = some a := by
  have hpre := List.rdropWhile_prefix p (a :: l)
  have hne : List.rdropWhile p (a :: l) ≠ [] := by
    intro h
    rw [List.rdropWhile_eq_nil_iff] at h
    have := h a (List.mem_cons_self a l)
    simp [ha] at this
  obtain ⟨t, ht⟩ := hpre
  cases hr : List.rdropWhile p (a :: l) with
  | nil => exact absurd hr hne
  | cons b r =>
    rw [hr] at ht
    simp at ht
    simp [ht.1]

theorem Trim_head_last (s cs : Text) :
    (∀ c, (Trim s cs).head? = some c → c ∉ cs) ∧
    (∀ c, (Trim s cs).getLast? = some c → c ∉ cs) := by
  have hT : Trim s cs = (s.dropWhile (fun c => cs.contains c)).rdropWhile
      (fun c => cs.contains c) := rfl
  constructor
  · intro c hc
    cases hd : s.dropWhile (fun c => cs.contains c) with
    | nil => rw [hT, hd] at hc; simp [List.rdropWhile] at hc
    | cons a l =>
      have ha : (fun c => cs.contains c) a = false := by
        have := List.head?_dropWhile_not (fun c => cs.contains c) s
        rw [hd] at this
        simpa using this
      rw [hT, hd, head?_rdropWhile _ a l ha] at hc
      cases hc
      simpa using ha
  · intro c hc
    rw [hT] at hc
    have hne : List.rdropWhile (fun c => cs.contains c)
        (s.dropWhile (fun c => cs.contains c)) ≠ [] := by
      intro h; rw [h] at hc; simp at hc
    have := List.rdropWhile_last_not (fun c => cs.contains c) _ hne
    rw [List.getLast?_eq_getLast _ hne] at hc
    cases hc
    simpa using this

theorem Trimmed_Trim (s : Text) : Trimmed (Trim s cutset) := Trim_head_last s cutset

theorem Trim_of_Trimmed (s : Text) (h : Trimmed s) : Trim s cutset = s := by
  have h1 : s.dropWhile (fun c => cutset.contains c) = s := by
    cases s with
    | nil => rfl
    | cons a l =>
      have := h.1 a rfl
      rw [List.dropWhile_cons_of_neg]
      simpa using this
  have hT : Trim s cutset = (s.dropWhile (fun c => cutset.contains c)).rdropWhile
      (fun c => cutset.contains c) := rfl
  rw [hT, h1, List.rdropWhile_eq_self_iff]
  intro hl
  have := h.2 (s.getLast hl) (List.getLast?_eq_getLast _ hl)
  simpa using this

/-! ## The command runner -/

theorem runLoop_accumulate (C h : Text) (t : Int) (ret : SSHReply) (es : List Event)
    (hp : ret.prompt = []) (hr : ret.result ≠ []) :
    runLoop C h t (.reply ret :: es) = runLoop C (h ++ ret.result) 2 es := by
  simp [runLoop, hp, hr]

theorem runLoop_echo (C h : Text) (t : Int) (ret : SSHReply) (es : List Event)
    (hp : ret.prompt ≠ []) (hpre : HasPrefix (combinedText h ret) C = true) :
    runLoop C h t (.reply ret :: es) =
      .answered { result := Trim ((combinedText h ret).drop C.length) cutset,
                  prompt := ret.prompt, command := C } := by
  simp [runLoop, hp, hpre]

theorem runLoop_more (C h : Text) (t : Int) (ret : SSHReply) (es : List Event)
    (hp : ret.prompt ≠ []) (hpre : HasPrefix (combinedText h ret) C = false)
    (hc : Contains (combinedText h ret) C = false) :
    runLoop C h t (.reply ret :: es) = runLoop C (combinedText h ret) t es := by
  simp [runLoop, hp, hpre, hc]

theorem runLoop_inside (C h : Text) (t : Int) (ret : SSHReply) (es : List Event)
    (hp : ret.prompt ≠ []) (hpre : HasPrefix (combinedText h ret) C = false)
    (hc : Contains (combinedText h ret) C = true) :
    runLoop C h t (.reply ret :: es) =
      .answered { result := combinedText h ret, prompt := ret.prompt, command := C } := by
  simp [runLoop, hp, hpre, hc]

theorem runLoop_zero (C h : Text) (t : Int) (ret : SSHReply) (es : List Event)
    (hp : ret.prompt = []) (hr : ret.result = []) :
    runLoop C h t (.reply ret :: es) = .fatal := by
  simp [runLoop, hp, hr]

theorem runLoop_answered (C : Text) (events : List Event) :
    ∀ (h : Text) (t : Int) (res : SSHReply), runLoop C h t events = .answered res →
      res.command = C ∧ res.prompt ≠ [] ∧ Trimmed res.result ∧
      ∃ pre ret post sH t1, events = pre ++ .reply ret :: post ∧
        runLoop C h t pre = .waiting sH t1 ∧
        runLoop C h t (pre ++ [.reply ret]) = .answered res ∧ res.prompt = ret.prompt := by
  induction events with
  | nil => intro h t res hrun; simp [runLoop] at hrun
  | cons e es ih =>
    intro h t res hrun
    cases e with
    | timeout => simp [runLoop] at hrun
    | reply ret =>
      by_cases hp : ret.prompt = []
      · by_cases hr : ret.result = []
        · rw [runLoop_zero C h t ret es hp hr] at hrun
          cases hrun
        · rw [runLoop_accumulate C h t ret es hp hr] at hrun
          obtain ⟨hc, hpn, htr, pre, r, post, sH, t1, hev, hw, hans, hpr⟩ := ih _ _ _ hrun
          refine ⟨hc, hpn, htr, .reply ret :: pre, r, post, sH, t1, by simp [hev], ?_, ?_, hpr⟩
          · rw [runLoop_accumulate C h t ret pre hp hr]
            exact hw
          · rw [List.cons_append, runLoop_accumulate C h t ret _ hp hr]
            exact hans
      · cases hpre : HasPrefix (combinedText h ret) C with
        | true =>
          rw [runLoop_echo C h t ret es hp hpre] at hrun
          cases hrun
          exact ⟨rfl, hp, Trimmed_Trim _, [], ret, es, h, t, rfl, by simp [runLoop],
            runLoop_echo C h t ret [] hp hpre, rfl⟩
        | false =>
          cases hc : Contains (combinedText h ret) C with
          | true =>
            rw [runLoop_inside C h t ret es hp hpre hc] at hrun
            cases hrun
            exact ⟨rfl, hp, Trimmed_Trim _, [], ret, es, h, t, rfl, by simp [runLoop],
              runLoop_inside C h t ret [] hp hpre hc, rfl⟩
          | false =>
            rw [runLoop_more C h t ret es hp hpre hc] at hrun
            obtain ⟨hcm, hpn, htr, pre, r, post, sH, t1, hev, hw, hans, hpr⟩ := ih _ _ _ hrun
            refine ⟨hcm, hpn, htr, .reply ret :: pre, r, post, sH, t1, by simp [hev], ?_, ?_,
              hpr⟩
            · rw [runLoop_more C h t ret pre hp hpre hc]
              exact hw
            · rw [List.cons_append, runLoop_more C h t ret _ hp hpre hc]
              exact hans

theorem runLoop_timedOut (C : Text) (events : List Event) :
    ∀ (h : Text) (t : Int) (res : SSHReply), runLoop C h t events = .timedOut res →
      res.command = C ∧ res.prompt = [] := by
  induction events with
  | nil => intro h t res hrun; simp [runLoop] at hrun
  | cons e es ih =>
    intro h t res hrun
    cases e with
    | timeout => simp [runLoop] at hrun; subst hrun; exact ⟨rfl, rfl⟩
    | reply ret =>
      by_cases hp : ret.prompt = []
      · by_cases hr : ret.result = []
        · rw [runLoop_zero C h t ret es hp hr] at hrun
          cases hrun
        · rw [runLoop_accumulate C h t ret es hp hr] at hrun
          exact ih _ _ _ hrun
      · cases hpre : HasPrefix (combinedText h ret) C with
        | true =>
          rw [runLoop_echo C h t ret es hp hpre] at hrun
          cases hrun
        | false =>
          cases hc : Contains (combinedText h ret) C with
          | true =>
            rw [runLoop_inside C h t ret es hp hpre hc] at hrun
            cases hrun
          | false =>
            rw [runLoop_more C h t ret es hp hpre hc] at hrun
            exact ih _ _ _ hrun

/-- Claim C1, as amended: for every command `C` with no leading and no trailing space,
line feed, carriage return or tab, every non-empty prompt `P` and every timeout `t`, when
the first Reply that `Run(C, t)` receives is `{result: C, prompt: P}`, `Run` returns the
Reply `{result: "", prompt: P, command: C}`. -/
theorem Run_echo_only (C P cmd0 : Text) (t : Int) (rest : List Event)
    (hP : P ≠ []) (hC : Trimmed C) :
    Run C t (.reply { result := C, prompt := P, command := cmd0 } :: rest) =
      .answered { result := [], prompt := P, command := C } := by
  have hcomb : combinedText [] { result := C, prompt := P, command := cmd0 } = C := by
    simp [combinedText, Trim_of_Trimmed C hC]
  rw [Run, runLoop_echo C [] t _ rest hP (by rw [hcomb]; exact HasPrefix_self C), hcomb]
  simp [Trim_nil]

theorem Run_echo_only_witness :
    Run ("show version").toList 5
        [.reply { result := ("show version").toList, prompt := ("A:admin@sr1#").toList,
                  command := [] }] =
      .answered { result := [], prompt := ("A:admin@sr1#").toList,
                  command := ("show version").toList } :=
  Run_echo_only _ _ _ _ _ (by decide) (by decide)

theorem runLoop_accumulates (C : Text) (rs : List SSHReply) :
    ∀ (h : Text) (t : Int) (rest : List Event),
      (∀ r ∈ rs, r.prompt = [] ∧ r.result ≠ []) →
      runLoop C h t (rs.map Event.reply ++ Event.timeout :: rest) =
        .timedOut { result := h ++ (rs.map SSHReply.result).flatten, prompt := [],
                    command := C } := by
  induction rs with
  | nil => intro h t rest _; simp [runLoop]
  | cons r rs ih =>
    intro h t rest hall
    have hr := hall r (List.mem_cons_self r rs)
    rw [List.map_cons, List.cons_append, runLoop_accumulate C h t r _ hr.1 hr.2,
      ih _ _ _ (fun x hx => hall x (List.mem_cons_of_mem r hx))]
    simp

/-- Claim C6: for every command `C`, every timeout `t` and every sequence of Replies that
each have an empty prompt and a non-empty result, when the timer fires after those
Replies, `Run(C, t)` returns the Reply whose result is the concatenation of their results
in arrival order, whose prompt is empty and whose command is `C`. -/
theorem Run_timeout_returns_accumulator (C : Text) (t : Int) (rs : List SSHReply)
    (rest : List Event) (h : ∀ r ∈ rs, r.prompt = [] ∧ r.result ≠ []) :
    Run C t (rs.map Event.reply ++ Event.timeout :: rest) =
      .timedOut { result := (rs.map SSHReply.result).flatten, prompt := [], command := C } := by
  rw [Run, runLoop_accumulates C rs [] t rest h]
  simp

theorem Run_timeout_returns_accumulator_witness :
    Run ("show version").toList 5
        ([{ result := ("TiMOS-B").toList, prompt := [], command := [] },
          { result := (" 20.10").toList, prompt := [], command := [] }].map Event.reply ++
          Event.timeout :: []) =
      .timedOut { result := ("TiMOS-B 20.10").toList, prompt := [],
                  command := ("show version").toList } :=
  Run_timeout_returns_accumulator _ 5 _ [] (by decide)

/-- Claim C10: a Reply returned by `Run(C, t)` has the command `C`, and has an empty prompt
exactly when `Run` returned on the timeout; when `Run` returned on a received Reply, the
prompt is not empty and is the prompt of the received Reply on which `Run` returned (before
it `Run` was still waiting, with it `Run` returns this very Reply), and the result has no
leading and no trailing space, line feed, carriage return or tab. -/
theorem Run_returned_reply (C : Text) (t : Int) (events : List Event) (res : SSHReply)
    (h : (Run C t events).returned = some res) :
    res.command = C ∧
    (res.prompt = [] ↔ Run C t events = .timedOut res) ∧
    (Run C t events = .answered res →
      res.prompt ≠ [] ∧ Trimmed res.result ∧
      ∃ pre ret post sH t1, events = pre ++ Event.reply ret :: post ∧
        Run C t pre = .waiting sH t1 ∧
        Run C t (pre ++ [Event.reply ret]) = .answered res ∧
        res.prompt = ret.prompt) := by
  cases hrun : Run C t events with
  | fatal => rw [hrun] at h; simp [RunOutcome.returned] at h
  | waiting sH t1 => rw [hrun] at h; simp [RunOutcome.returned] at h
  | timedOut r =>
    rw [hrun] at h
    simp only [RunOutcome.returned, Option.some.injEq] at h
    subst h
    have := runLoop_timedOut C events [] t r hrun
    exact ⟨this.1, by simp [this.2], fun hh => by cases hh⟩
  | answered r =>
    rw [hrun] at h
    simp only [RunOutcome.returned, Option.some.injEq] at h
    subst h
    obtain ⟨hc, hp, htr, hex⟩ := runLoop_answered C events [] t r hrun
    exact ⟨hc, by simp [hp], fun _ => ⟨hp, htr, hex⟩⟩

theorem Run_returned_reply_witness :
    (Run ("show version").toList 5
      [.reply { result := ("old output").toList, prompt := ("OLD#").toList, command := [] },
       .reply { result := ("show version\r\nTiMOS-B 20.10\r\n").toList,
                prompt := ("NEW#").toList, command := [] }]).returned =
      some { result := ("old output#show version\r\nTiMOS-B 20.10").toList,
             prompt := ("NEW#").toList, command := ("show version").toList } ∧
    Trimmed ("old output#show version\r\nTiMOS-B 20.10").toList ∧
    ("NEW#").toList ≠ [] ∧
    ((("NEW#").toList = []) ↔
      Run ("show version").toList 5
        [.reply { result := ("old output").toList, prompt := ("OLD#").toList, command := [] },
         .reply { result := ("show version\r\nTiMOS-B 20.10\r\n").toList,
                  prompt := ("NEW#").toList, command := [] }] =
        .timedOut { result := ("old output#show version\r\nTiMOS-B 20.10").toList,
                    prompt := ("NEW#").toList, command := ("show version").toList }) :=
  have h := Run_returned_reply ("show version").toList 5
    [.reply { result := ("old output").toList, prompt := ("OLD#").toList, command := [] },
     .reply { result := ("show version\r\nTiMOS-B 20.10\r\n").toList,
              prompt := ("NEW#").toList, command := [] }]
    { result := ("old output#show version\r\nTiMOS-B 20.10").toList,
      prompt := ("NEW#").toList, command := ("show version").toList } (by decide)
  have h2 := h.2.2 (by decide)
  ⟨by decide, h2.2.1, h2.1, h.2.1⟩

/-- Claim C1 fails for a command that ends in a space: on the echo `"ls "` with the prompt
`#`, `Run("ls ", 5)` does not return but keeps waiting with the accumulator `"ls"`, and when
the timer fires next, the Reply it returns is not `{result: "", prompt: "#"}`. -/
theorem Run_echo_only_untrimmed_command :
    Run ("ls ").toList 5
        [.reply { result := ("ls ").toList, prompt := ("#").toList, command := [] }] =
      .waiting ("ls").toList 5 ∧
    (Run ("ls ").toList 5
        [.reply { result := ("ls ").toList, prompt := ("#").toList, command := [] },
         .timeout]).returned ≠
      some { result := [], prompt := ("#").toList, command := ("ls ").toList } := by
  decide

/-! ## Splitting at the delimiter -/

theorem Contains_singleton (s : Text) (c : Char) : Contains s [c] = true ↔ c ∈ s := by
  induction s with
  | nil => simp [Contains]
  | cons a s ih =>
    rw [Contains, Bool.or_eq_true, ih, List.mem_cons]
    simp [HasPrefix, List.isPrefixOf]

theorem Split_ne_nil (s : Text) (sep : Char) : Split s sep ≠ [] := by
  cases s with
  | nil => simp [Split]
  | cons c cs =>
    rw [Split]
    split
    · simp
    · split <;> simp

theorem Split_cons_sep (cs : Text) (sep : Char) : Split (sep :: cs) sep = [] :: Split cs sep := by
  rw [Split]; simp

theorem Split_cons_other (c : Char) (cs : Text) (sep : Char) (h : c ≠ sep) :
    Split (c :: cs) sep = (c :: (Split cs sep).headD []) :: (Split cs sep).tail := by
  rw [Split, if_neg h]
  cases hs : Split cs sep with
  | nil => exact absurd hs (Split_ne_nil cs sep)
  | cons p ps => simp

theorem Split_of_not_mem (s : Text) (sep : Char) (h : sep ∉ s) : Split s sep = [s] := by
  induction s with
  | nil => simp [Split]
  | cons c cs ih =>
    have hc : c ≠ sep := fun e => h (by simp [e])
    have hcs : sep ∉ cs := fun e => h (List.mem_cons_of_mem c e)
    rw [Split_cons_other c cs sep hc, ih hcs]
    simp

theorem Split_append (a x : Text) (sep : Char) :
    Split (a ++ x) sep =
      (Split a sep).dropLast ++ Split ((Split a sep).getLastD [] ++ x) sep := by
  induction a with
  | nil => simp [Split]
  | cons c cs ih =>
    by_cases hc : c = sep
    · subst hc
      rw [List.cons_append, Split_cons_sep, Split_cons_sep, ih]
      cases hs : Split cs c with
      | nil => exact absurd hs (Split_ne_nil cs c)
      | cons p ps => simp
    · rw [List.cons_append, Split_cons_other c _ sep hc, Split_cons_other c cs sep hc, ih]
      cases hs : Split cs sep with
      | nil => exact absurd hs (Split_ne_nil cs sep)
      | cons p ps =>
        cases ps with
        | nil =>
          simp only [List.dropLast_single, List.nil_append, List.getLastD_cons, List.getLast?_nil,
            List.headD_cons, List.tail_cons, List.getLastD_nil]
          rw [List.cons_append, Split_cons_other c _ sep hc]
        | cons q qs => simp

theorem Join_Split (s : Text) (sep : Char) : Join (Split s sep) [sep] = s := by
  induction s with
  | nil => simp [Split, Join]
  | cons c cs ih =>
    by_cases hc : c = sep
    · subst hc
      rw [Split_cons_sep]
      cases hs : Split cs c with
      | nil => exact absurd hs (Split_ne_nil cs c)
      | cons p ps =>
        rw [hs] at ih
        simp [Join, ih]
    · rw [Split_cons_other c cs sep hc]
      cases hs : Split cs sep with
      | nil => exact absurd hs (Split_ne_nil cs sep)
      | cons p ps =>
        rw [hs] at ih
        cases ps with
        | nil => simp [Join] at ih ⊢; exact ih
        | cons q qs => simp [Join] at ih ⊢; exact ih

theorem length_Split (s : Text) (sep : Char) : (Split s sep).length = s.count sep + 1 := by
  induction s with
  | nil => simp [Split]
  | cons c cs ih =>
    by_cases hc : c = sep
    · subst hc
      rw [Split_cons_sep]
      simp [ih]
    · rw [Split_cons_other c cs sep hc]
      have hne := Split_ne_nil cs sep
      have : (Split cs sep).tail.length + 1 = (Split cs sep).length := by
        cases hs : Split cs sep with
        | nil => exact absurd hs hne
        | cons p ps => simp
      rw [List.length_cons, this, ih, List.count_cons_of_ne (Ne.symm hc)]

theorem flushSegments_eq (parse : Text → Option SSHReply) (tmpS : Text) :
    flushSegments parse tmpS =
      ((Split tmpS '#').dropLast.map (segmentReply parse), (Split tmpS '#').getLastD []) := by
  unfold flushSegments
  by_cases h : Contains tmpS ['#'] = true
  · simp [h]
  · have hn : '#' ∉ tmpS := fun hm => h ((Contains_singleton tmpS '#').2 hm)
    simp [h, Split_of_not_mem tmpS '#' hn]

/-! ## The reader -/

theorem flushSegments_of_not_mem (parse : Text → Option SSHReply) (tmpS : Text)
    (h : '#' ∉ tmpS) : flushSegments parse tmpS = ([], tmpS) := by
  rw [flushSegments_eq, Split_of_not_mem tmpS '#' h]
  simp

theorem readerLoop_no_delimiter (parse : Text → Option SSHReply) (reads : List ReadResult) :
    ∀ tmpS : Text, '#' ∉ tmpS → (∀ r ∈ reads, r.err = false ∧ '#' ∉ r.data) →
      readerLoop parse tmpS reads = ([], false) := by
  induction reads with
  | nil =>
    intro tmpS h _
    simp [readerLoop, flushSegments_of_not_mem parse tmpS h]
  | cons r rs ih =>
    intro tmpS h hall
    have hr := hall r (List.mem_cons_self r rs)
    have hnext : '#' ∉ tmpS ++ r.data := by
      simp [List.mem_append, h, hr.2]
    rw [readerLoop]
    simp only [flushSegments_of_not_mem parse tmpS h, hr.1, Bool.false_eq_true, if_false,
      List.nil_append]
    rw [ih _ hnext (fun x hx => hall x (List.mem_cons_of_mem r hx))]

/-- Claim C2: while every read succeeds and delivers a chunk without the delimiter `#`, the
reader sends no Reply and keeps running; so a first Reply comes only after a chunk with
the delimiter or after the end of the stream. -/
theorem InChannel_silent_without_delimiter (parse : Text → Option SSHReply)
    (reads : List ReadResult) (h : ∀ r ∈ reads, r.err = false ∧ '#' ∉ r.data) :
    InChannel parse reads = ([], false) := by
  cases reads with
  | nil => rfl
  | cons r rs =>
    have hr := h r (List.mem_cons_self r rs)
    rw [InChannel]
    simp only [hr.1, Bool.false_eq_true, if_false]
    exact readerLoop_no_delimiter parse rs r.data hr.2
      (fun x hx => h x (List.mem_cons_of_mem r hx))

theorem InChannel_silent_without_delimiter_witness :
    InChannel (fun _ => none) [.ok ("Welcome").toList, .ok (" to sr1").toList] = ([], false) :=
  InChannel_silent_without_delimiter _ _ (by decide)

theorem getLastD_append_of_ne_nil {α : Type} (A B : List α) (d : α) (h : B ≠ []) :
    (A ++ B).getLastD d = B.getLastD d := by
  rw [List.getLastD_eq_getLast?, List.getLastD_eq_getLast?, List.getLast?_append_of_ne_nil _ h]

theorem readerLoop_chunks (parse : Text → Option SSHReply) (chunks : List Text) :
    ∀ tmpS : Text,
      readerLoop parse tmpS (chunks.map ReadResult.ok ++ [ReadResult.eof]) =
        ((Split (tmpS ++ chunks.flatten) '#').dropLast.map (segmentReply parse) ++
          [{ result := (Split (tmpS ++ chunks.flatten) '#').getLastD [], prompt := [],
             command := [] }], true) := by
  induction chunks with
  | nil =>
    intro tmpS
    simp [readerLoop, flushSegments_eq, ReadResult.eof]
  | cons c cs ih =>
    intro tmpS
    have hne := Split_ne_nil ((Split tmpS '#').getLastD [] ++ (c ++ cs.flatten)) '#'
    rw [List.map_cons, List.cons_append, readerLoop]
    simp only [ReadResult.ok, Bool.false_eq_true, if_false, flushSegments_eq]
    rw [ih, List.flatten_cons, Split_append tmpS (c ++ cs.flatten) '#', List.append_assoc,
      List.dropLast_append_of_ne_nil _ hne, getLastD_append_of_ne_nil _ _ _ hne]
    simp

theorem InChannel_chunks (parse : Text → Option SSHReply) (chunks : List Text) :
    InChannel parse (chunks.map ReadResult.ok ++ [ReadResult.eof]) =
      ((Split chunks.flatten '#').dropLast.map (segmentReply parse) ++
        [{ result := (Split chunks.flatten '#').getLastD [], prompt := [], command := [] }],
       true) := by
  cases chunks with
  | nil => simp [InChannel, ReadResult.eof, Split]
  | cons c cs =>
    rw [List.map_cons, List.cons_append, InChannel]
    simp only [ReadResult.ok, Bool.false_eq_true, if_false]
    rw [readerLoop_chunks, List.flatten_cons]

/-- Claim C9: for successfully read chunks followed by the end of the stream, and a
`PromptParse` hook that always declines, the reader sends one Reply with an empty prompt
for each segment of the concatenated text split at `#`, in order; these are as many as
there are `#` in the text plus one, and joining their results with `#` gives the text
back. -/
theorem InChannel_declining_hook (chunks : List Text) :
    InChannel (fun _ => none) (chunks.map ReadResult.ok ++ [ReadResult.eof]) =
      ((Split chunks.flatten '#').map
        (fun seg => { result := seg, prompt := [], command := [] }), true) ∧
    (InChannel (fun _ => none) (chunks.map ReadResult.ok ++ [ReadResult.eof])).1.length =
      chunks.flatten.count '#' + 1 ∧
    Join ((InChannel (fun _ => none)
      (chunks.map ReadResult.ok ++ [ReadResult.eof])).1.map SSHReply.result) ['#'] =
      chunks.flatten := by
  have hseg : segmentReply (fun _ => none) =
      fun seg => ({ result := seg, prompt := [], command := [] } : SSHReply) := by
    funext seg; rfl
  have hne := Split_ne_nil chunks.flatten '#'
  have hmain : InChannel (fun _ => none) (chunks.map ReadResult.ok ++ [ReadResult.eof]) =
      ((Split chunks.flatten '#').map
        (fun seg => ({ result := seg, prompt := [], command := [] } : SSHReply)), true) := by
    rw [InChannel_chunks, hseg]
    conv_rhs => rw [← List.dropLast_append_getLast hne, List.map_append]
    simp [List.getLastD_eq_getLast?, List.getLast?_eq_getLast _ hne]
  refine ⟨hmain, ?_, ?_⟩
  · rw [hmain]; simp [length_Split]
  · rw [hmain]
    simp only [List.map_map]
    have : (SSHReply.result ∘ fun seg => ({ result := seg, prompt := [], command := [] } :
        SSHReply)) = id := by funext seg; rfl
    rw [this, List.map_id, Join_Split]

/-- Claim C7 at its failing inputs, with a hook that always declines: after the chunk `"a#"`
and the end of the stream the final Reply has an empty result and an empty prompt; after
the chunk `"a##b"` the Reply for the second segment has; and `Run("", 15)` fed the Replies
of the first case ends in `log.Fatalf("received zero?")`. -/
theorem InChannel_emits_empty_reply :
    (InChannel (fun _ => none) [.ok ("a#").toList, .eof]).1 =
      [{ result := ['a'], prompt := [], command := [] },
       { result := [], prompt := [], command := [] }] ∧
    (InChannel (fun _ => none) [.ok ("a##b").toList]).1 =
      [{ result := ['a'], prompt := [], command := [] },
       { result := [], prompt := [], command := [] }] ∧
    Run [] 15 ((InChannel (fun _ => none) [.ok ("a#").toList, .eof]).1.map Event.reply) =
      .fatal := by
  decide

/-- Claim C8 at its failing input: when the very first read fails and delivers `"abc"`, the
final Reply has an empty result, the bytes are lost; when the same read comes second,
after a read of no bytes, the final Reply carries `"abc"`. -/
theorem InChannel_first_read_fails_with_data (parse : Text → Option SSHReply) :
    InChannel parse [{ data := ("abc").toList, err := true }] =
      ([{ result := [], prompt := [], command := [] }], true) ∧
    InChannel parse [.ok [], { data := ("abc").toList, err := true }] =
      ([{ result := ("abc").toList, prompt := [], command := [] }], true) := by
  constructor
  · rfl
  · simp [InChannel, readerLoop, flushSegments, Contains, ReadResult.ok]

/-! ## The transactional writer -/

theorem HasPrefix_singleton (l : Text) (c : Char) :
    HasPrefix l [c] = true ↔ l.head? = some c := by
  cases l with
  | nil => simp [HasPrefix]
  | cons a l =>
    simp only [HasPrefix, List.isPrefixOf, List.head?_cons, Option.some.injEq, Bool.and_true,
      beq_iff_eq]
    exact eq_comm

theorem isExecutable_eq_false (l : Text) (h : l = [] ∨ HasPrefix l ['#'] = true) :
    isExecutable l = false := by
  rw [isExecutable, decide_eq_false_iff_not]
  rintro ⟨h1, h2⟩
  rcases h with h | h
  · exact h1 h
  · exact h2 ((HasPrefix_singleton _ _).1 h)

theorem isExecutable_eq_true (l : Text) (h : ¬ (l = [] ∨ HasPrefix l ['#'] = true)) :
    isExecutable l = true := by
  rw [isExecutable, decide_eq_true_iff]
  exact ⟨fun e => h (Or.inl e), fun e => h (Or.inr ((HasPrefix_singleton _ _).2 e))⟩

theorem Info_filter (D : Int) (r : SSHReply) (node : Text) (q : Call → Bool)
    (hq : ∀ m, q (.logInfo m) = false) : (r.Info D node).filter q = [] := by
  unfold SSHReply.Info
  split <;> simp [hq]

theorem writeLines_filter_nil {σ : Type} (D : Int) (t : SSHTransport σ) (q : Call → Bool)
    (hqr : ∀ l tmo, q (.Run l tmo) = false) (hql : ∀ m, q (.logInfo m) = false)
    (ls : List Text) : ∀ s : σ, (writeLines D t ls s).calls.filter q = [] := by
  induction ls with
  | nil => intro s; simp [writeLines]
  | cons l ls ih =>
    intro s
    simp only [writeLines]
    by_cases hskip : TrimSpace l = [] ∨ HasPrefix (TrimSpace l) ['#'] = true
    · simp only [hskip, if_true]
      exact ih s
    · simp only [hskip, if_false]
      cases hr : (t.Run s (TrimSpace l) 5).1 with
      | none => simp [hqr]
      | some r => simp [hqr, Info_filter D _ _ q hql, ih]

theorem writeLines_not_exited {σ : Type} (D : Int) (t : SSHTransport σ)
    (hrun : ∀ s l, (t.Run s l 5).1 ≠ none) (ls : List Text) :
    ∀ s : σ, (writeLines D t ls s).exited = false := by
  induction ls with
  | nil => intro s; simp [writeLines]
  | cons l ls ih =>
    intro s
    simp only [writeLines]
    by_cases hskip : TrimSpace l = [] ∨ HasPrefix (TrimSpace l) ['#'] = true
    · simp only [hskip, if_true]
      exact ih s
    · simp only [hskip, if_false]
      cases hr : (t.Run s (TrimSpace l) 5).1 with
      | none => exact absurd hr (hrun s _)
      | some r => exact ih _

theorem writeLines_filter {σ : Type} (D : Int) (t : SSHTransport σ)
    (hrun : ∀ s l, (t.Run s l 5).1 ≠ none) (q : Call → Bool)
    (hq : ∀ m, q (.logInfo m) = false) (ls : List Text) :
    ∀ s : σ, (writeLines D t ls s).calls.filter q =
      (((ls.map TrimSpace).filter isExecutable).map (fun l => Call.Run l 5)).filter q := by
  induction ls with
  | nil => intro s; simp [writeLines]
  | cons l ls ih =>
    intro s
    simp only [writeLines]
    by_cases hskip : TrimSpace l = [] ∨ HasPrefix (TrimSpace l) ['#'] = true
    · simp only [hskip, if_true, List.map_cons, List.filter_cons,
        isExecutable_eq_false _ hskip, Bool.false_eq_true, if_false]
      exact ih s
    · simp only [hskip, if_false, List.map_cons, List.filter_cons,
        isExecutable_eq_true _ hskip, if_true]
      cases hr : (t.Run s (TrimSpace l) 5).1 with
      | none => exact absurd hr (hrun s _)
      | some r =>
        simp only [List.filter_cons, List.filter_append, Info_filter D _ _ q hq,
          List.nil_append, ih]

theorem writeLines_count {σ : Type} (D : Int) (t : SSHTransport σ)
    (hrun : ∀ s l, (t.Run s l 5).1 ≠ none) (ls : List Text) :
    ∀ s : σ, (writeLines D t ls s).c = ((ls.map TrimSpace).filter isExecutable).length := by
  induction ls with
  | nil => intro s; simp [writeLines]
  | cons l ls ih =>
    intro s
    simp only [writeLines]
    by_cases hskip : TrimSpace l = [] ∨ HasPrefix (TrimSpace l) ['#'] = true
    · simp only [hskip, if_true, List.map_cons, List.filter_cons,
        isExecutable_eq_false _ hskip, Bool.false_eq_true, if_false]
      exact ih s
    · simp only [hskip, if_false, List.map_cons, List.filter_cons,
        isExecutable_eq_true _ hskip, if_true, List.length_cons]
      cases hr : (t.Run s (TrimSpace l) 5).1 with
      | none => exact absurd hr (hrun s _)
      | some r => simp only [ih]

theorem Write_calls_started {σ : Type} (D : Int) (t : SSHTransport σ) (data info : Text)
    (s : σ) (hd : data ≠ [])
    (hstart : (t.K.ConfigStart s (!HasPrefix info ("show-").toList)).1 = none)
    (hrun : ∀ s l, (t.Run s l 5).1 ≠ none)
    (q : Call → Bool) (hq : ∀ m, q (.logInfo m) = false) (hqe : ∀ m, q (.logError m) = false) :
    (Write D t data info s).calls.filter q =
      ([Call.ConfigStart (!HasPrefix info ("show-").toList)] ++
        ((executableLines data).map (fun l => Call.Run l 5) ++
          if HasPrefix info ("show-").toList then [] else [Call.ConfigCommit])).filter q := by
  unfold Write
  rw [if_neg hd]
  simp only [hstart, writeLines_not_exited D t hrun, Bool.false_eq_true, if_false]
  cases hinfo : HasPrefix info ("show-").toList with
  | true =>
    simp only [Bool.not_true, Bool.false_eq_true, if_false, if_true, List.append_nil]
    rw [List.singleton_append, List.filter_cons, List.filter_cons,
      writeLines_filter D t hrun q hq]
    rfl
  | false =>
    simp only [Bool.not_false, if_true, Bool.false_eq_true, if_false]
    split <;>
    · simp only [List.singleton_append, List.filter_cons, List.filter_append, List.filter_nil,
        hq, hqe, Bool.false_eq_true, if_false, writeLines_filter D t hrun q hq]
      rfl

theorem dropWhile_rdropWhile_head_last {α : Type} (p : α → Bool) (s : List α) :
    (∀ c ∈ ((s.dropWhile p).rdropWhile p).head?, p c = false) ∧
    (∀ c ∈ ((s.dropWhile p).rdropWhile p).getLast?, p c = false) := by
  constructor
  · intro c hc
    cases hd : s.dropWhile p with
    | nil => rw [hd] at hc; simp [List.rdropWhile] at hc
    | cons a l =>
      have ha : p a = false := by
        have := List.head?_dropWhile_not p s
        rw [hd] at this
        simpa using this
      rw [hd, head?_rdropWhile _ a l ha] at hc
      cases hc
      exact ha
  · intro c hc
    have hne : List.rdropWhile p (s.dropWhile p) ≠ [] := by
      intro h; rw [h] at hc; simp at hc
    have := List.rdropWhile_last_not p _ hne
    rw [List.getLast?_eq_getLast _ hne] at hc
    cases hc
    simpa using this

theorem TrimSpace_head_last (s : Text) :
    (∀ c ∈ (TrimSpace s).head?, isSpace c = false) ∧
    (∀ c ∈ (TrimSpace s).getLast?, isSpace c = false) :=
  dropWhile_rdropWhile_head_last isSpace s

/-- Claim C4, as amended: when `ConfigStart` succeeds and every call of `Run` returns a
Reply (none ends the process), the calls of `Run` that `Write` makes are, in order, one for
each line of the data (split at line feeds) that, trimmed of white space, is not empty and
does not start with `#`, with the trimmed line as the command and a timeout of 5 seconds;
so every command passed to `Run` is not empty, does not start with `#` and has no white
space at its start or at its end. -/
theorem Write_runs_executable_lines {σ : Type} (D : Int) (t : SSHTransport σ)
    (data info : Text) (s : σ)
    (hstart : (t.K.ConfigStart s (!HasPrefix info ("show-").toList)).1 = none)
    (hrun : ∀ s l, (t.Run s l 5).1 ≠ none) :
    (Write D t data info s).calls.filter Call.isRun =
      (executableLines data).map (fun l => Call.Run l 5) ∧
    ∀ l timeout, Call.Run l timeout ∈ (Write D t data info s).calls →
      timeout = 5 ∧ l ≠ [] ∧ l.head? ≠ some '#' ∧
      (∀ c ∈ l.head?, isSpace c = false) ∧ (∀ c ∈ l.getLast?, isSpace c = false) := by
  have hmain : (Write D t data info s).calls.filter Call.isRun =
      (executableLines data).map (fun l => Call.Run l 5) := by
    by_cases hd : data = []
    · subst hd
      simp [Write, executableLines, Split, TrimSpace, isExecutable]
    · rw [Write_calls_started D t data info s hd hstart hrun Call.isRun (fun _ => rfl)
        (fun _ => rfl)]
      have hruns : ∀ ls : List Text, (ls.map (fun l => Call.Run l 5)).filter Call.isRun =
          ls.map (fun l => Call.Run l 5) := by
        intro ls
        rw [List.filter_eq_self]
        intro c hc
        obtain ⟨l, _, rfl⟩ := List.mem_map.1 hc
        rfl
      rw [List.singleton_append, List.filter_cons, List.filter_append, hruns]
      cases HasPrefix info ("show-").toList <;> simp [Call.isRun]
  refine ⟨hmain, ?_⟩
  intro l timeout hmem
  have hf : Call.Run l timeout ∈ (Write D t data info s).calls.filter Call.isRun :=
    List.mem_filter.2 ⟨hmem, rfl⟩
  rw [hmain] at hf
  obtain ⟨x, hx, hxl⟩ := List.mem_map.1 hf
  simp only [Call.Run.injEq] at hxl
  obtain ⟨rfl, rfl⟩ := hxl
  obtain ⟨hxm, hexec⟩ := List.mem_filter.1 hx
  obtain ⟨y, _, rfl⟩ := List.mem_map.1 hxm
  rw [isExecutable, decide_eq_true_iff] at hexec
  exact ⟨rfl, hexec.1, hexec.2, (TrimSpace_head_last y).1, (TrimSpace_head_last y).2⟩

theorem Write_runs_executable_lines_witness :
    (Write 0 quietDevice ("\n# comment\nset x y\n").toList ("config-update").toList
      ()).calls.filter Call.isRun = [Call.Run ("set x y").toList 5] ∧
    (Write 0 quietDevice ("  set x y \r\n\t# note\n \t \nset z\n").toList
      ("config-update").toList ()).calls.filter Call.isRun =
      [Call.Run ("set x y").toList 5, Call.Run ("set z").toList 5] :=
  ⟨(Write_runs_executable_lines 0 quietDevice ("\n# comment\nset x y\n").toList
      ("config-update").toList () (by decide) (fun _ _ => by simp [quietDevice])).1.trans
      (by decide),
   (Write_runs_executable_lines 0 quietDevice ("  set x y \r\n\t# note\n \t \nset z\n").toList
      ("config-update").toList () (by decide) (fun _ _ => by simp [quietDevice])).1.trans
      (by decide)⟩

/-- Claim C4 fails when a call of `Run` ends the process: on the session in which the
reader sends an empty segment during the first `Run`, `ConfigStart` succeeds, `Run` for
`set a 1` ends in `log.Fatalf`, and the second executable line `set b 2` is never passed to
`Run`. -/
theorem Write_stops_at_fatal_Run :
    (scriptedDevice.K.ConfigStart emptySegmentSession true).1 = none ∧
    Run ("set a 1").toList 5 ((emptySegmentSession.headD []).map Event.reply) = .fatal ∧
    (Write 0 scriptedDevice ("set a 1\nset b 2\n").toList ("config-update").toList
      emptySegmentSession).calls.filter Call.isRun = [Call.Run ("set a 1").toList 5] ∧
    ¬ ((Write 0 scriptedDevice ("set a 1\nset b 2\n").toList ("config-update").toList
      emptySegmentSession).calls.filter Call.isRun =
      [Call.Run ("set a 1").toList 5, Call.Run ("set b 2").toList 5]) := by
  decide

theorem filter_runs (q : Call → Bool) (hq : ∀ l t, q (Call.Run l t) = true) (ls : List Text) :
    (ls.map (fun l => Call.Run l 5)).filter q = ls.map (fun l => Call.Run l 5) := by
  rw [List.filter_eq_self]
  intro c hc
  obtain ⟨l, _, rfl⟩ := List.mem_map.1 hc
  exact hq l 5

theorem getLast?_cons_append_pair {α : Type} (a b c : α) (l : List α) :
    (a :: (l ++ [b, c])).getLast? = some c := by
  have : a :: (l ++ [b, c]) = (a :: (l ++ [b])) ++ [c] := by simp
  rw [this, List.getLast?_concat]

theorem Write_calls_writable {σ : Type} (D : Int) (t : SSHTransport σ) (data info : Text)
    (s : σ) (hd : data ≠ []) (hinfo : HasPrefix info ("show-").toList = false)
    (hstart : (t.K.ConfigStart s true).1 = none)
    (hrun : ∀ s l, (t.Run s l 5).1 ≠ none) :
    ∃ (c : Call) (x : Text),
      (Write D t data info s).calls =
        Call.ConfigStart true ::
          ((writeLines D t (Split data '\n') (t.K.ConfigStart s true).2).calls ++
            [Call.ConfigCommit, c]) ∧
      c.logText = some (commitMessage info
        (writeLines D t (Split data '\n') (t.K.ConfigStart s true).2).c ++ x) := by
  unfold Write
  rw [if_neg hd]
  simp only [hinfo, Bool.not_false, hstart, if_true, writeLines_not_exited D t hrun,
    Bool.false_eq_true, if_false]
  split
  · split
    · exact ⟨_, _, rfl, rfl⟩
    · exact ⟨_, [], rfl, by simp [Call.logText]⟩
  · split
    · exact ⟨_, _, rfl, rfl⟩
    · exact ⟨_, [], rfl, by simp [Call.logText]⟩

/-- Claim C5, as amended: for non-empty data and an info string that does not start with
`show-`, when `ConfigStart` succeeds and every call of `Run` returns a Reply (none ends the
process), `Write` calls, apart from logging, `ConfigStart(true)` once, then `Run` once for
each executable line, then `ConfigCommit` once; and the last thing it does is to log a
message that starts with `<info> COMMIT - <n> lines`, `n` being the number of its `Run`
calls, which is the number of executable lines. -/
theorem Write_transaction {σ : Type} (D : Int) (t : SSHTransport σ) (data info : Text)
    (s : σ) (hd : data ≠ []) (hinfo : HasPrefix info ("show-").toList = false)
    (hstart : (t.K.ConfigStart s true).1 = none)
    (hrun : ∀ s l, (t.Run s l 5).1 ≠ none) :
    (Write D t data info s).calls.filter (fun c => !c.isLog) =
      Call.ConfigStart true ::
        ((executableLines data).map (fun l => Call.Run l 5) ++ [Call.ConfigCommit]) ∧
    ((Write D t data info s).calls.filter Call.isRun).length = (executableLines data).length ∧
    ((Write D t data info s).calls.getLast?.bind Call.logText).map
      (fun msg => HasPrefix msg (info ++ (" COMMIT - ").toList ++
        Nat.toDigits 10 ((Write D t data info s).calls.filter Call.isRun).length ++
        (" lines").toList)) = some true := by
  have hstart1 : (t.K.ConfigStart s (!HasPrefix info ("show-").toList)).1 = none := by
    rw [hinfo]; exact hstart
  have hn : ((Write D t data info s).calls.filter Call.isRun).length =
      (writeLines D t (Split data '\n') (t.K.ConfigStart s true).2).c := by
    rw [Write_calls_started D t data info s hd hstart1 hrun Call.isRun (fun _ => rfl)
      (fun _ => rfl), hinfo, writeLines_count D t hrun]
    simp only [Bool.not_false, Bool.false_eq_true, if_false, List.singleton_append,
      List.filter_cons, List.filter_append, filter_runs Call.isRun (fun _ _ => rfl)]
    simp [Call.isRun, executableLines]
  refine ⟨?_, ?_, ?_⟩
  · rw [Write_calls_started D t data info s hd hstart1 hrun (fun c => !c.isLog)
      (fun _ => rfl) (fun _ => rfl), hinfo]
    simp only [Bool.not_false, Bool.false_eq_true, if_false, List.singleton_append,
      List.filter_cons, List.filter_append, filter_runs (fun c => !c.isLog) (fun _ _ => rfl)]
    rfl
  · rw [hn, writeLines_count D t hrun]
    rfl
  · obtain ⟨c, x, hcalls, hc⟩ := Write_calls_writable D t data info s hd hinfo hstart hrun
    rw [hn, hcalls, getLast?_cons_append_pair, Option.some_bind, hc]
    simp [HasPrefix, commitMessage]

theorem Write_transaction_witness :
    (Write 0 quietDevice ("  set a 1 \n \t \n\t# note\nset b 2\n").toList
      ("config-update").toList ()).calls.filter (fun c => !c.isLog) =
      [Call.ConfigStart true, Call.Run ("set a 1").toList 5, Call.Run ("set b 2").toList 5,
        Call.ConfigCommit] ∧
    (Write 0 quietDevice ("  set a 1 \n \t \n\t# note\nset b 2\n").toList
      ("config-update").toList ()).calls.getLast? =
      some (Call.logInfo ("config-update COMMIT - 2 lines").toList) :=
  ⟨(Write_transaction 0 quietDevice ("  set a 1 \n \t \n\t# note\nset b 2\n").toList
      ("config-update").toList () (by decide) (by decide) (by decide)
      (fun _ _ => by simp [quietDevice])).1.trans (by decide), by decide⟩

/-- Claim C5 fails when a call of `Run` ends the process: on the session in which the
reader sends an empty segment during the first `Run`, `Write` calls `ConfigStart(true)` and
`Run` for `set a 1`, and then nothing: no `Run` for the second line, no `ConfigCommit`, no
summary message, and `Write` does not return. -/
theorem Write_no_commit_after_fatal_Run :
    (scriptedDevice.K.ConfigStart emptySegmentSession true).1 = none ∧
    (Write 0 scriptedDevice ("set a 1\nset b 2\n").toList ("config-update").toList
      emptySegmentSession).calls =
      [Call.ConfigStart true, Call.Run ("set a 1").toList 5] ∧
    (Write 0 scriptedDevice ("set a 1\nset b 2\n").toList ("config-update").toList
      emptySegmentSession).outcome = .exited ∧
    ¬ ((Write 0 scriptedDevice ("set a 1\nset b 2\n").toList ("config-update").toList
      emptySegmentSession).calls.filter (fun c => !c.isLog) =
      [Call.ConfigStart true, Call.Run ("set a 1").toList 5, Call.Run ("set b 2").toList 5,
        Call.ConfigCommit]) := by
  decide

/-- Claim C3, as amended: for non-empty data and an info string that starts with `show-`,
`Write` calls `ConfigStart` exactly once, with `transaction = false`, and calls
`ConfigCommit` zero times. -/
theorem Write_show_no_commit {σ : Type} (D : Int) (t : SSHTransport σ) (data info : Text)
    (s : σ) (hd : data ≠ []) (hinfo : HasPrefix info ("show-").toList = true) :
    (Write D t data info s).calls.filter Call.isConfigStart = [Call.ConfigStart false] ∧
    (Write D t data info s).calls.filter Call.isConfigCommit = [] := by
  have hstartNil := writeLines_filter_nil D t Call.isConfigStart (fun _ _ => rfl)
    (fun _ => rfl) (Split data '\n')
  have hcommitNil := writeLines_filter_nil D t Call.isConfigCommit (fun _ _ => rfl)
    (fun _ => rfl) (Split data '\n')
  unfold Write
  rw [if_neg hd]
  simp only [hinfo, Bool.not_true, Bool.false_eq_true, if_false]
  cases hstart : (t.K.ConfigStart s false).1 with
  | some e => exact ⟨rfl, rfl⟩
  | none =>
    simp only
    split
    · simp only [List.filter_cons, hstartNil, hcommitNil]
      exact ⟨rfl, rfl⟩
    · simp only [List.filter_cons, hstartNil, hcommitNil]
      exact ⟨rfl, rfl⟩

theorem Write_show_no_commit_witness :
    (Write 0 quietDevice ("show version\n").toList ("show-status").toList
      ()).calls.filter Call.isConfigStart = [Call.ConfigStart false] ∧
    (Write 0 quietDevice ("show version\n").toList ("show-status").toList
      ()).calls.filter Call.isConfigCommit = [] :=
  Write_show_no_commit 0 quietDevice ("show version\n").toList ("show-status").toList ()
    (by decide) (by decide)

/-- Claim C3 fails on the blob `"show version\n"` with the info `"show-status"`: `Write`
calls `ConfigStart(false)` before it runs the line, so the number of its `ConfigStart` calls
is not zero. -/
theorem Write_show_calls_ConfigStart :
    (Write 0 quietDevice ("show version\n").toList ("show-status").toList ()).calls =
      [Call.ConfigStart false, Call.Run ("show version").toList 5] ∧
    ¬ ((Write 0 quietDevice ("show version\n").toList ("show-status").toList
      ()).calls.filter Call.isConfigStart).length = 0 := by
  decide

/-! ## The command runner: where `Run` returns -/

theorem Contains_of_HasPrefix (s sub : Text) (h : HasPrefix s sub = true) :
    Contains s sub = true := by
  cases s with
  | nil =>
    cases sub with
    | nil => rfl
    | cons a l => simp [HasPrefix] at h
  | cons c cs => rw [Contains, h, Bool.true_or]

theorem Contains_iff_isInfix (s sub : Text) : Contains s sub = true ↔ sub <:+: s := by
  induction s with
  | nil =>
    rw [Contains, List.infix_nil]
    exact List.isEmpty_iff
  | cons c cs ih =>
    rw [Contains, Bool.or_eq_true, ih, List.infix_cons_iff, HasPrefix,
      List.isPrefixOf_iff_prefix]

theorem runLoop_append (C : Text) (pre : List Event) :
    ∀ (h : Text) (t : Int) (sH : Text) (t1 : Int), runLoop C h t pre = .waiting sH t1 →
      ∀ es : List Event, runLoop C h t (pre ++ es) = runLoop C sH t1 es := by
  induction pre with
  | nil =>
    intro h t sH t1 hw es
    simp only [runLoop, RunOutcome.waiting.injEq] at hw
    rw [List.nil_append, hw.1, hw.2]
  | cons e pre ih =>
    intro h t sH t1 hw es
    cases e with
    | timeout => simp [runLoop] at hw
    | reply ret =>
      by_cases hp : ret.prompt = []
      · by_cases hr : ret.result = []
        · rw [runLoop_zero C h t ret pre hp hr] at hw
          cases hw
        · rw [runLoop_accumulate C h t ret pre hp hr] at hw
          rw [List.cons_append, runLoop_accumulate C h t ret _ hp hr]
          exact ih _ _ _ _ hw es
      · cases hpre : HasPrefix (combinedText h ret) C with
        | true =>
          rw [runLoop_echo C h t ret pre hp hpre] at hw
          cases hw
        | false =>
          cases hc : Contains (combinedText h ret) C with
          | true =>
            rw [runLoop_inside C h t ret pre hp hpre hc] at hw
            cases hw
          | false =>
            rw [runLoop_more C h t ret pre hp hpre hc] at hw
            rw [List.cons_append, runLoop_more C h t ret _ hp hpre hc]
            exact ih _ _ _ _ hw es

theorem runLoop_contains (C h : Text) (t : Int) (ret : SSHReply) (es : List Event)
    (hp : ret.prompt ≠ []) (hc : Contains (combinedText h ret) C = true) :
    ∃ result, runLoop C h t (.reply ret :: es) =
      .answered { result := result, prompt := ret.prompt, command := C } := by
  cases hpre : HasPrefix (combinedText h ret) C with
  | true => exact ⟨_, runLoop_echo C h t ret es hp hpre⟩
  | false => exact ⟨_, runLoop_inside C h t ret es hp hpre hc⟩

theorem runLoop_not_contains (C h : Text) (t : Int) (ret : SSHReply) (es : List Event)
    (hp : ret.prompt ≠ []) (hc : Contains (combinedText h ret) C = false) :
    runLoop C h t (.reply ret :: es) = runLoop C (combinedText h ret) t es := by
  have hpre : HasPrefix (combinedText h ret) C = false := by
    cases hh : HasPrefix (combinedText h ret) C with
    | false => rfl
    | true => rw [Contains_of_HasPrefix _ _ hh] at hc; cases hc
  exact runLoop_more C h t ret es hp hpre hc

theorem runLoop_no_prompt (C h : Text) (t : Int) (ret : SSHReply)
    (hp : ret.prompt = []) (res : SSHReply) :
    runLoop C h t [.reply ret] ≠ .answered res := by
  by_cases hr : ret.result = []
  · rw [runLoop_zero C h t ret [] hp hr]; simp
  · rw [runLoop_accumulate C h t ret [] hp hr]; simp [runLoop]

/-- Claim C11: when `Run(C, t)` is still waiting, with the accumulator `sH`, and receives a
Reply, it returns at this Reply exactly when the Reply has a non-empty prompt and its
combined text contains `C` as a contiguous block, the combined text being the accumulator,
then `#`, then the result when the accumulator is not empty, else the result alone, trimmed
of leading and trailing space, line feed, carriage return and tab; the Reply returned
carries the received prompt and `C`.  For a Reply with a prompt whose combined text does not
contain `C`, `Run` keeps waiting, with the combined text as the new accumulator and the
timeout unchanged.  With an empty `C`, `Run` returns at the first Reply that has a
prompt. -/
theorem Run_returns_at_first_match (C : Text) (t : Int) (pre : List Event) (ret : SSHReply)
    (sH : Text) (t1 : Int) (hw : Run C t pre = .waiting sH t1) :
    ((∃ res, Run C t (pre ++ [.reply ret]) = .answered res) ↔
      (ret.prompt ≠ [] ∧
        C <:+: Trim (if sH = [] then ret.result else sH ++ ['#'] ++ ret.result)
          [' ', '\n', '\r', '\t'])) ∧
    (ret.prompt ≠ [] →
      C <:+: Trim (if sH = [] then ret.result else sH ++ ['#'] ++ ret.result)
        [' ', '\n', '\r', '\t'] →
      ∀ post, ∃ result,
        Run C t (pre ++ .reply ret :: post) =
          .answered { result := result, prompt := ret.prompt, command := C }) ∧
    (ret.prompt ≠ [] →
      ¬ C <:+: Trim (if sH = [] then ret.result else sH ++ ['#'] ++ ret.result)
        [' ', '\n', '\r', '\t'] →
      Run C t (pre ++ [.reply ret]) =
        .waiting (Trim (if sH = [] then ret.result else sH ++ ['#'] ++ ret.result)
          [' ', '\n', '\r', '\t']) t1) ∧
    (ret.prompt ≠ [] → C = [] → ∀ post, ∃ result,
      Run C t (pre ++ .reply ret :: post) =
        .answered { result := result, prompt := ret.prompt, command := C }) := by
  have hcomb : Trim (if sH = [] then ret.result else sH ++ ['#'] ++ ret.result)
      [' ', '\n', '\r', '\t'] = combinedText sH ret := rfl
  rw [hcomb]
  have happ := runLoop_append C pre [] t sH t1 hw
  have hyes : ret.prompt ≠ [] → C <:+: combinedText sH ret → ∀ post, ∃ result,
      Run C t (pre ++ .reply ret :: post) =
        .answered { result := result, prompt := ret.prompt, command := C } := by
    intro hp hc post
    rw [Run, happ]
    exact runLoop_contains C sH t1 ret post hp ((Contains_iff_isInfix _ _).2 hc)
  have hno : ret.prompt ≠ [] → ¬ C <:+: combinedText sH ret →
      Run C t (pre ++ [.reply ret]) = .waiting (combinedText sH ret) t1 := by
    intro hp hc
    have hcf : Contains (combinedText sH ret) C = false := by
      cases hh : Contains (combinedText sH ret) C with
      | false => rfl
      | true => exact absurd ((Contains_iff_isInfix _ _).1 hh) hc
    rw [Run, happ, runLoop_not_contains C sH t1 ret [] hp hcf]
    rfl
  refine ⟨⟨?_, ?_⟩, hyes, hno, ?_⟩
  · rintro ⟨res, hres⟩
    by_cases hp : ret.prompt = []
    · rw [Run, happ] at hres
      exact absurd hres (runLoop_no_prompt C sH t1 ret hp res)
    · refine ⟨hp, ?_⟩
      by_contra hc
      rw [hno hp hc] at hres
      cases hres
  · rintro ⟨hp, hc⟩
    obtain ⟨result, hr⟩ := hyes hp hc []
    exact ⟨_, hr⟩
  · intro hp hC post
    exact hyes hp (by rw [hC]; exact List.nil_infix) post

theorem Run_returns_at_first_match_witness :
    Run ("show version").toList 5
      ([.reply { result := ("stale output").toList, prompt := ("A:sr1#").toList,
                 command := [] }] ++
       [.reply { result := (" more stale \r\n").toList, prompt := ("A:sr1#").toList,
                 command := [] }]) =
      .waiting ("stale output# more stale").toList 5 ∧
    Run ("show version").toList 5
      ([] ++ [.reply { result := ("\r\nstale output ").toList, prompt := ("A:sr1#").toList,
                       command := [] }]) =
      .waiting ("stale output").toList 5 ∧
    ("show version").toList <:+: ("stale output#show version\r\nTiMOS").toList ∧
    Run ("show version").toList 5
      ([.reply { result := ("stale output").toList, prompt := ("A:sr1#").toList,
                 command := [] }] ++
       [.reply { result := ("show version\r\nTiMOS\r\n").toList, prompt := ("A:sr1#").toList,
                 command := [] }]) =
      .answered { result := ("stale output#show version\r\nTiMOS").toList,
                  prompt := ("A:sr1#").toList, command := ("show version").toList } :=
  ⟨((Run_returns_at_first_match ("show version").toList 5
      [.reply { result := ("stale output").toList, prompt := ("A:sr1#").toList,
                command := [] }]
      { result := (" more stale \r\n").toList, prompt := ("A:sr1#").toList, command := [] }
      ("stale output").toList 5 (by decide)).2.2.1 (by decide) (by decide)).trans
      (by decide),
   ((Run_returns_at_first_match ("show version").toList 5 []
      { result := ("\r\nstale output ").toList, prompt := ("A:sr1#").toList, command := [] }
      [] 5 (by decide)).2.2.1 (by decide) (by decide)).trans (by decide),
   by decide, by decide⟩

/-! ## The delimiter, the errors of `Write`, construction and connection -/

/-- Claim C12 at its failing input: with `PromptChar` set to `$`, the reader sends no Reply
for the stream `a$b` while the stream is open, and for the stream `a#b` it sends the
segment `a`: it splits at `#`, whatever `PromptChar` is. -/
theorem reader_ignores_PromptChar :
    dollarDevice.PromptChar = ['$'] ∧
    dollarDevice.reader [.ok ("a$b").toList] = ([], false) ∧
    dollarDevice.reader [.ok ("a#b").toList] =
      ([{ result := ['a'], prompt := [], command := [] }], false) := by
  decide

/-- Claim C13, as amended: for non-empty data, when every call of `Run` returns a Reply
(none ends the process), `Write` returns, and the error it returns is the error of
`ConfigStart` when that returns one; else, when the info string does not start with
`show-`, the error of `ConfigCommit` (none when that returns none); else none. -/
theorem Write_error {σ : Type} (D : Int) (t : SSHTransport σ) (data info : Text) (s : σ)
    (hd : data ≠ []) (hrun : ∀ s l, (t.Run s l 5).1 ≠ none) :
    (Write D t data info s).outcome =
      .returned
        (match (t.K.ConfigStart s (!HasPrefix info ("show-").toList)).1 with
         | some e => some e
         | none =>
           if HasPrefix info ("show-").toList then none
           else (t.K.ConfigCommit (writeLines D t (Split data '\n')
             (t.K.ConfigStart s (!HasPrefix info ("show-").toList)).2).state).1.2) := by
  unfold Write
  rw [if_neg hd]
  simp only [writeLines_not_exited D t hrun, Bool.false_eq_true, if_false]
  cases hstart : (t.K.ConfigStart s (!HasPrefix info ("show-").toList)).1 with
  | some e => rfl
  | none =>
    cases hinfo : HasPrefix info ("show-").toList with
    | true => simp
    | false =>
      simp only [Bool.not_false, if_true, Bool.false_eq_true, if_false]
      split <;> simp_all

theorem Write_error_witness :
    (Write 0 failingCommitDevice ("set a 1\n").toList ("config-update").toList ()).outcome =
      .returned (some { message := ("commit failed").toList }) ∧
    (Write 0 failingCommitDevice ("show version\n").toList ("show-status").toList
      ()).outcome = .returned none ∧
    (Write 0 failingStartDevice ("set a 1\n").toList ("config-update").toList ()).outcome =
      .returned (some { message := ("start failed").toList }) ∧
    (Write 0 quietDevice ("set a 1\n").toList ("config-update").toList ()).outcome =
      .returned none :=
  ⟨(Write_error 0 failingCommitDevice ("set a 1\n").toList ("config-update").toList ()
      (by decide) (fun _ _ => by simp [failingCommitDevice, quietDevice])).trans (by decide),
   (Write_error 0 failingCommitDevice ("show version\n").toList ("show-status").toList ()
      (by decide) (fun _ _ => by simp [failingCommitDevice, quietDevice])).trans (by decide),
   (Write_error 0 failingStartDevice ("set a 1\n").toList ("config-update").toList ()
      (by decide) (fun _ _ => by simp [failingStartDevice, quietDevice])).trans (by decide),
   (Write_error 0 quietDevice ("set a 1\n").toList ("config-update").toList ()
      (by decide) (fun _ _ => by simp [quietDevice])).trans (by decide)⟩

/-- Claim C13 fails when a call of `Run` ends the process: on the session in which the
reader sends an empty segment during the first `Run`, `ConfigStart` returns no error and
`ConfigCommit` is never called, yet `Write` returns neither an error nor `nil`: it does not
return. -/
theorem Write_does_not_return_after_fatal_Run :
    (scriptedDevice.K.ConfigStart emptySegmentSession true).1 = none ∧
    (Write 0 scriptedDevice ("set a 1\n").toList ("config-update").toList
      emptySegmentSession).outcome = .exited ∧
    ¬ ((Write 0 scriptedDevice ("set a 1\n").toList ("config-update").toList
      emptySegmentSession).outcome = .returned none) ∧
    Call.ConfigCommit ∉ (Write 0 scriptedDevice ("set a 1\n").toList
      ("config-update").toList emptySegmentSession).calls := by
  decide

/-- Claim C14 at its failing inputs: for a transport with a credential configuration,
`Connect("localhost")` and `Connect("10.0.0.1")` end in the panic `index out of range [2]
with length 1`, before the session is opened; a host with two `-` gets as far as the dial
and returns its failure as an error value. -/
theorem Connect_index_out_of_range :
    (Connect 0 refusingDial credentialDevice ("localhost").toList ()).outcome =
      .indexOutOfRange 2 1 ∧
    (Connect 0 refusingDial credentialDevice ("10.0.0.1").toList ()).outcome =
      .indexOutOfRange 2 1 ∧
    (Connect 0 refusingDial credentialDevice ("clab-lab-sr1").toList ()).outcome =
      .returned (some { message := ("cannot connect to clab-lab-sr1:22: connection refused").toList }) := by
  decide

/-- Claim C15 at its failing input: the transport that `NewSSHTransport` builds for the
kind `srl` with no options has an empty, non-nil `SSHConfig`, so `Connect` does not reject
it and calls `NewSSHSession` with that empty configuration; a transport whose `SSHConfig`
is `nil` is rejected by `Connect` with an error before any session is opened. -/
theorem NewSSHTransport_has_empty_SSHConfig :
    ((NewSSHTransport (fun _ => quietDevice.K) quietDevice.Run ("srl").toList []).1.map
      (fun t => t.SSHConfig)) = some (some {}) ∧
    ((NewSSHTransport (fun _ => quietDevice.K) quietDevice.Run ("srl").toList []).1.map
      (fun t => (Connect 0 refusingDial t ("clab-lab-srl1").toList ()).sessions)) =
      some [(("clab-lab-srl1:22").toList, {})] ∧
    (Connect 0 refusingDial quietDevice ("clab-lab-srl1").toList ()).sessions = [] ∧
    (Connect 0 refusingDial quietDevice ("clab-lab-srl1").toList ()).outcome =
      .returned (some { message := ("require auth credentials in SSHConfig").toList }) := by
  decide

/-- Claim C16: `NewSSHTransport` returns an error and no transport exactly when the kind is
neither `vr-sros` nor `srl`; for `vr-sros` it returns no error and a transport whose `K` is
the `VrSrosSSHKind`, for `srl` no error and a transport whose `K` is the `SrlSSHKind`. -/
theorem NewSSHTransport_kind {σ : Type} (impl : SSHKindImpl → SSHKind σ)
    (run : σ → Text → Int → Option SSHReply × σ) (kind : Text)
    (options : List (SSHOption σ)) :
    (((NewSSHTransport impl run kind options).2 ≠ none ∧
        (NewSSHTransport impl run kind options).1.isNone = true) ↔
      (kind ≠ ("vr-sros").toList ∧ kind ≠ ("srl").toList)) ∧
    (kind = ("vr-sros").toList →
      (NewSSHTransport impl run kind options).2 = none ∧
      (NewSSHTransport impl run kind options).1.map (fun t => t.K) =
        some (impl .VrSrosSSHKind)) ∧
    (kind = ("srl").toList →
      (NewSSHTransport impl run kind options).2 = none ∧
      (NewSSHTransport impl run kind options).1.map (fun t => t.K) =
        some (impl .SrlSSHKind)) := by
  refine ⟨?_, ?_, ?_⟩
  · by_cases h : kind = ("vr-sros").toList ∨ kind = ("srl").toList
    · simp only [NewSSHTransport, if_pos h]
      constructor
      · intro hh; exact absurd rfl hh.1
      · intro hh; rcases h with h | h
        · exact absurd h hh.1
        · exact absurd h hh.2
    · simp only [NewSSHTransport, if_neg h]
      constructor
      · intro _
        exact ⟨fun e => h (Or.inl e), fun e => h (Or.inr e)⟩
      · intro _
        exact ⟨by simp, rfl⟩
  · intro h
    subst h
    simp [NewSSHTransport]
  · intro h
    subst h
    have hne : ¬ (("srl").toList = ("vr-sros").toList) := by decide
    simp [NewSSHTransport, hne]

/-- Claim C17 at its failing input: `Run` called with the timeout 1 that receives a Reply
with an empty prompt and the result `TiMOS` waits on with the timeout 2, which is larger
than 1. -/
theorem Run_timeout_raised :
    Run ("show version").toList 1
      [.reply { result := ("TiMOS").toList, prompt := [], command := [] }] =
      .waiting ("TiMOS").toList 2 ∧ ¬ ((2 : Int) ≤ 1) := by
  decide

/-- Claim C18: for empty data `Write` returns no error, makes no call (neither
`ConfigStart`, nor `Run`, nor `ConfigCommit`, nor a log) and leaves the session as it
was. -/
theorem Write_empty_data {σ : Type} (D : Int) (t : SSHTransport σ) (info : Text) (s : σ) :
    (Write D t [] info s).outcome = .returned none ∧ (Write D t [] info s).calls = [] ∧
    (Write D t [] info s).state = s := by
  simp [Write]

/-- Claim C19: for every hook, two sequences of successful reads with the same concatenated
text, each followed by an end of stream that delivers no bytes, make the reader send the
same Replies. -/
theorem InChannel_fragmentation (parse : Text → Option SSHReply) (a b : List Text)
    (h : a.flatten = b.flatten) :
    InChannel parse (a.map ReadResult.ok ++ [ReadResult.eof]) =
      InChannel parse (b.map ReadResult.ok ++ [ReadResult.eof]) := by
  rw [InChannel_chunks, InChannel_chunks, h]

theorem InChannel_fragmentation_witness :
    InChannel (fun _ => none)
        ([("ab").toList, ("#c").toList].map ReadResult.ok ++ [ReadResult.eof]) =
      InChannel (fun _ => none)
        ([("a").toList, ("b#").toList, ("c").toList].map ReadResult.ok ++ [ReadResult.eof]) :=
  InChannel_fragmentation _ _ _ (by decide)

end Transport
